import Mathlib

/-!
Verification of `src/weather_filter.py`.

The script filters tabular weather records by a minimum temperature
threshold.  We shallow-embed its pure core:

* a Python float is embedded as `PyFloat`: a finite value carried
  exactly as a rational, positive or negative infinity, or `nan`
  (which compares false under every ordering comparison, as in
  IEEE 754); finite values carry exact rationals, so binary rounding,
  overflow-to-infinity and precision are not modelled;
* a raw CSV cell value (`Value`) is absent (Python `None`), numeric,
  text, or of some other type;
* a record is an ordered mapping from column name to raw value,
  embedded as an association list with the keys in insertion order
  (Python `dict` keys are unique and ordered);
* the builtin `float(str)` conversion is embedded as an executable
  parser `pyFloat` accepting decimal/scientific literals with optional
  sign and PEP 515 underscore digit grouping, and the special values
  `nan` and `inf`/`infinity` case-insensitively with optional sign;
  digits are modelled as ASCII digits;
* the driver `main` is embedded as a function of an abstract
  environment recording the facts the control flow branches on
  (input-file existence, loaded records, CLI arguments, whether the
  log append succeeds), returning the observable outcome of the run.
-/

set_option autoImplicit false

namespace WeatherFilter

/-- A Python `float` value: a finite value (embedded exactly as a
rational), positive or negative infinity, or `nan`. -/
inductive PyFloat where
  | finite : ℚ → PyFloat
  | inf : PyFloat
  | ninf : PyFloat
  | nan : PyFloat
deriving DecidableEq, Repr

/-- IEEE-754 `x >= y` on embedded floats: false whenever either side
is `nan`, and the exact rational comparison on finite values. -/
def pyGe (x y : PyFloat) : Bool :=
  match x, y with
  | .nan, _ => false
  | _, .nan => false
  | .inf, _ => true
  | .ninf, .ninf => true
  | .ninf, _ => false
  | .finite _, .inf => false
  | .finite _, .ninf => true
  | .finite a, .finite b => decide (b ≤ a)

/-- IEEE-754 `x < y` on embedded floats: false whenever either side is
`nan`, and the exact rational comparison on finite values. -/
def pyLt (x y : PyFloat) : Bool :=
  match x, y with
  | .nan, _ => false
  | _, .nan => false
  | .inf, _ => false
  | .ninf, .ninf => false
  | .ninf, _ => true
  | .finite _, .inf => true
  | .finite _, .ninf => false
  | .finite a, .finite b => decide (a < b)

/-- A raw cell value as `to_float` receives it: Python `None`, a
numeric (`int`/`float`) value, a string, or a value of any other type. -/
inductive Value where
  | vnone : Value
  | vnum : PyFloat → Value
  | vstr : String → Value
  | vother : Value
deriving DecidableEq, Repr

/-- One data row: an ordered mapping from column name to raw value
(Python `dict`, keys unique and in insertion order). -/
abbrev Record := List (String × Value)

/-- The ordered key view `r.keys()` of a record. -/
def keys (r : Record) : List String := r.map Prod.fst

/-- Python `temp_field in r`: key membership in the record's mapping. -/
def hasKey (r : Record) (k : String) : Bool := (r.lookup k).isSome

/-- Python `r.get(temp_field)`: the value stored at a key, `None` when
the key is absent. -/
def getValue (r : Record) (k : String) : Value :=
  (r.lookup k).getD Value.vnone

/-- `TEMP_FIELD_CANDIDATES = ("temperature", "temp", "tavg", "tmax", "tmin")`. -/
def TEMP_FIELD_CANDIDATES : List String :=
  ["temperature", "temp", "tavg", "tmax", "tmin"]

/-- Python's `str.strip()` whitespace set: ASCII whitespace including
vertical tab and form feed, the `\x1c`–`\x1f` separators, `\x85`, and
the Unicode space characters. -/
def pyIsSpace (c : Char) : Bool :=
  c == ' ' || c == '\t' || c == '\n' || c == '\r' ||
    c.toNat == 0x0b || c.toNat == 0x0c ||
    (decide (0x1c ≤ c.toNat) && decide (c.toNat ≤ 0x1f)) ||
    c.toNat == 0x85 || c.toNat == 0xa0 || c.toNat == 0x1680 ||
    (decide (0x2000 ≤ c.toNat) && decide (c.toNat ≤ 0x200a)) ||
    c.toNat == 0x2028 || c.toNat == 0x2029 || c.toNat == 0x202f ||
    c.toNat == 0x205f || c.toNat == 0x3000

/-- Python `s.strip()`: remove leading and trailing whitespace.
Embedded on the character list so that it evaluates by kernel
reduction. -/
def pyStrip (s : String) : String :=
  String.mk (((s.toList.dropWhile pyIsSpace).reverse.dropWhile
    pyIsSpace).reverse)

/-- Python `k.lower()`, embedded on the character list. -/
def lowerString (s : String) : String :=
  String.mk (s.toList.map Char.toLower)

/-- The numeric value of a list of decimal digit characters. -/
def natOfDigits (l : List Char) : ℕ :=
  l.foldl (fun a c => a * 10 + (c.toNat - 48)) 0

/-- No two adjacent underscores in the character list. -/
def noDoubleUnderscore : List Char → Bool
  | [] => true
  | [_] => true
  | a :: b :: rest => !(a == '_' && b == '_') && noDoubleUnderscore (b :: rest)

/-- A PEP 515 digit group as accepted by `float()`: decimal digits
with single underscores strictly between digits (`10`, `1_0`; not
`_1`, `1_`, `1__0`, or empty). -/
def validDigitGroup (cs : List Char) : Bool :=
  (cs.all fun c => c.isDigit || c == '_') &&
    cs.head?.any Char.isDigit &&
    cs.getLast?.any Char.isDigit &&
    noDoubleUnderscore cs

/-- The integer value of a digit group, underscores removed. -/
def groupVal (cs : List Char) : ℚ :=
  (natOfDigits (cs.filter Char.isDigit) : ℚ)

/-- The fractional value of a digit group read after the decimal
point, underscores removed. -/
def fracVal (cs : List Char) : ℚ :=
  groupVal cs / (10 : ℚ) ^ (cs.filter Char.isDigit).length

/-- Mantissa of a Python float literal, as `float()` accepts it:
`digits`, `digits.`, `digits.digits`, or `.digits`, each digit part an
underscore-grouped digit group. -/
def parseMantissa (cs : List Char) : Option ℚ :=
  let ip := cs.takeWhile fun c => c.isDigit || c == '_'
  let rest := cs.dropWhile fun c => c.isDigit || c == '_'
  match rest with
  | [] => if validDigitGroup ip then some (groupVal ip) else none
  | '.' :: fp =>
      if fp.isEmpty then
        if validDigitGroup ip then some (groupVal ip) else none
      else
        if (ip.isEmpty || validDigitGroup ip) && validDigitGroup fp then
          some (groupVal ip + fracVal fp)
        else none
  | _ => none

/-- Strip one optional leading sign, returning whether it was `-`. -/
def parseSign : List Char → Bool × List Char
  | '-' :: cs => (true, cs)
  | '+' :: cs => (false, cs)
  | cs => (false, cs)

/-- Exponent of a Python float literal: optional sign then a nonempty
underscore-grouped digit group. -/
def parseExponent (cs : List Char) : Option ℤ :=
  let p := parseSign cs
  if validDigitGroup p.2 then
    if p.1 then some (-(natOfDigits (p.2.filter Char.isDigit) : ℤ))
    else some (natOfDigits (p.2.filter Char.isDigit) : ℤ)
  else none

/-- The builtin `float(s)` conversion on an already-stripped string:
the special values `nan` and `inf`/`infinity` (case-insensitive, with
optional sign, the sign of `nan` being irrelevant), and finite decimal
or scientific literals with optional sign and PEP 515 underscore digit
grouping (`"1"`, `"-2.5"`, `".5e+3"`, `"1.E-2"`, `"1_0.2_5"`, `"NaN"`,
`"-Infinity"`, ...); `none` when `float` raises `ValueError`. -/
def pyFloat (s : String) : Option PyFloat :=
  let p := parseSign s.toList
  let low := p.2.map Char.toLower
  if low = ['n', 'a', 'n'] then some PyFloat.nan
  else if low = ['i', 'n', 'f'] ∨ low = ['i', 'n', 'f', 'i', 'n', 'i', 't', 'y'] then
    some (if p.1 then PyFloat.ninf else PyFloat.inf)
  else
    let mant := p.2.takeWhile fun c => c != 'e' && c != 'E'
    let rest := p.2.dropWhile fun c => c != 'e' && c != 'E'
    match parseMantissa mant with
    | none => none
    | some m =>
        match rest with
        | [] => some (PyFloat.finite (if p.1 then -m else m))
        | _ :: ex =>
            match parseExponent ex with
            | none => none
            | some e =>
                some (PyFloat.finite
                  (if p.1 then -(m * (10 : ℚ) ^ e) else m * (10 : ℚ) ^ e))

/-- `to_float(v)`, lines 67–80 of `weather_filter.py`. -/
def to_float : Value → Option PyFloat
  | Value.vnone => none
  | Value.vnum x => some x
  | Value.vstr v =>
      let s := pyStrip v
      if s = "" then none
      else pyFloat s
  | Value.vother => none

/-- The inner loop of `choose_temp_field` on one record: build
`lower_map = \x7bk.lower(): k for k in r.keys()\x7d` (later keys overwrite
earlier ones sharing a lowercase form) and return the first candidate's
original-case column name. -/
def detectInRecord (r : Record) : Option String :=
  TEMP_FIELD_CANDIDATES.findSome? fun cand =>
    ((keys r).filter fun k => lowerString k == cand).getLast?

/-- `choose_temp_field(records, preferred)`, lines 53–64: a truthy
(non-`None`, nonempty) preferred name is returned unconditionally;
otherwise the first 25 records are scanned in order and the first
record yielding any candidate match decides. -/
def choose_temp_field (records : List Record) (preferred : Option String) :
    Option String :=
  match preferred with
  | some p =>
      if p != "" then some p
      else if records.isEmpty then none
      else (records.take 25).findSome? detectInRecord
  | none =>
      if records.isEmpty then none
      else (records.take 25).findSome? detectInRecord

/-- The `Stats` dataclass. -/
structure Stats where
  read : ℕ := 0
  written : ℕ := 0
  skipped_missing_temp : ℕ := 0
  skipped_bad_temp : ℕ := 0
deriving DecidableEq, Repr

/-- The loop of `filter_records`, returning the kept records and the
final `skipped_missing_temp` and `skipped_bad_temp` counters. -/
def filterLoop (temp_field : String) (temp_min : PyFloat) :
    List Record → List Record × ℕ × ℕ
  | [] => ([], 0, 0)
  | r :: rs =>
      let acc := filterLoop temp_field temp_min rs
      if !hasKey r temp_field then
        (acc.1, acc.2.1 + 1, acc.2.2)
      else
        match to_float (getValue r temp_field) with
        | none => (acc.1, acc.2.1, acc.2.2 + 1)
        | some t =>
            if pyGe t temp_min then (r :: acc.1, acc.2.1, acc.2.2)
            else (acc.1, acc.2.1, acc.2.2)

/-- `filter_records(records, temp_field, temp_min)`, lines 83–101:
`read` is the input length, `written` the number of kept records. -/
def filter_records (records : List Record) (temp_field : String)
    (temp_min : PyFloat) : List Record × Stats :=
  let acc := filterLoop temp_field temp_min records
  (acc.1,
    { read := records.length, written := acc.1.length,
      skipped_missing_temp := acc.2.1, skipped_bad_temp := acc.2.2 })

/-- The decision `filter_records` makes for one record: key present,
value coercible, and coerced value at or above the threshold
(`t >= temp_min` in the source). -/
def keepB (temp_field : String) (temp_min : PyFloat) (r : Record) : Bool :=
  hasKey r temp_field &&
    match to_float (getValue r temp_field) with
    | some t => pyGe t temp_min
    | none => false

/-- A record counted in `skipped_missing_temp`: the key is absent. -/
def missB (temp_field : String) (r : Record) : Bool :=
  !hasKey r temp_field

/-- A record counted in `skipped_bad_temp`: key present, value not
coercible. -/
def badB (temp_field : String) (r : Record) : Bool :=
  hasKey r temp_field && (to_float (getValue r temp_field)).isNone

/-- A record whose value is strictly below the threshold (the bucket
exactly as claim C2 words it): key present, value coercible, and
`t < temp_min` — false when the value is `nan`. -/
def belowB (temp_field : String) (temp_min : PyFloat) (r : Record) : Bool :=
  hasKey r temp_field &&
    match to_float (getValue r temp_field) with
    | some t => pyLt t temp_min
    | none => false

/-- A record dropped silently by the program: key present, value
coercible, but the keep comparison `t >= temp_min` is false — because
the value is below the threshold or because it is `nan`. -/
def notGeB (temp_field : String) (temp_min : PyFloat) (r : Record) : Bool :=
  hasKey r temp_field &&
    match to_float (getValue r temp_field) with
    | some t => !pyGe t temp_min
    | none => false

/-- The facts `main` branches on: whether the input path exists, the
records and header loaded by `load_csv`, the CLI arguments, and
whether the `append_log` call succeeds or raises. -/
structure Args where
  input_exists : Bool
  input_records : List Record
  temp_min : PyFloat
  temp_field : Option String
  log_append_ok : Bool

/-- The observable outcome of one run of `main`: the exit status, the
rows written to the output file by `write_csv` (`none` when no output
file is created), the final stats, and which messages were emitted. -/
structure RunOutcome where
  exit_code : ℕ
  output_written : Option (List Record)
  run_stats : Option Stats
  log_line_written : Bool
  warning_emitted : Bool
  summary_printed : Bool
deriving DecidableEq, Repr

/-- The outcome of a run aborted before any output is produced. -/
def abortedRun : RunOutcome :=
  { exit_code := 2, output_written := none, run_stats := none,
    log_line_written := false, warning_emitted := false,
    summary_printed := false }

/-- `main()`, lines 120–143: missing input aborts with status 2; a
falsy chosen field (`None`, or an empty string, per `if not temp_field`)
aborts with status 2; otherwise the filtered rows are written, the log
append is attempted (a failure only emits a warning), the summary is
printed and the status is 0. -/
def main (a : Args) : RunOutcome :=
  if !a.input_exists then abortedRun
  else
    match choose_temp_field a.input_records a.temp_field with
    | none => abortedRun
    | some tf =>
        if tf = "" then abortedRun
        else
          let res := filter_records a.input_records tf a.temp_min
          { exit_code := 0, output_written := some res.1,
            run_stats := some res.2,
            log_line_written := a.log_append_ok,
            warning_emitted := !a.log_append_ok,
            summary_printed := true }

/-- The chosen field is falsy in Python (`if not temp_field`): it is
`None` or the empty string. -/
def fieldFalsy (a : Args) : Prop :=
  choose_temp_field a.input_records a.temp_field = none ∨
    choose_temp_field a.input_records a.temp_field = some ""

/-- All records of a run share one column set (the uniform header). -/
def uniformHeader (records : List Record) : Prop :=
  ∀ r ∈ records, ∀ r' ∈ records, ∀ k : String, hasKey r k = hasKey r' k

/-! ### Helper lemmas -/

/-- On finite values the keep comparison is the exact rational
comparison, so the threshold boundary is inclusive. -/
theorem pyGe_finite_iff (a b : ℚ) :
    pyGe (PyFloat.finite a) (PyFloat.finite b) = true ↔ b ≤ a := by
  simp [pyGe]

/-- Key membership agrees with membership in the key view. -/
theorem hasKey_iff_mem_keys (r : Record) (k : String) :
    hasKey r k = true ↔ k ∈ keys r := by
  simp only [hasKey, List.lookup_isSome_iff, keys, List.mem_map, beq_iff_eq]
  constructor
  · rintro ⟨p, hp, rfl⟩; exact ⟨p, hp, rfl⟩
  · rintro ⟨p, hp, rfl⟩; exact ⟨p, hp, rfl⟩

/-- The filtering loop is a `List.filter` together with two counters. -/
theorem filterLoop_eq (f : String) (m : PyFloat) (rs : List Record) :
    filterLoop f m rs =
      (rs.filter (keepB f m),
        (rs.filter (missB f)).length, (rs.filter (badB f)).length) := by
  induction rs with
  | nil => rfl
  | cons r rs ih =>
      simp only [filterLoop, ih, List.filter_cons]
      by_cases hk : hasKey r f
      · cases hv : to_float (getValue r f) with
        | none => simp [keepB, missB, badB, hk, hv]
        | some t =>
            cases hm : pyGe t m with
            | false => simp [keepB, missB, badB, hk, hv, hm]
            | true => simp [keepB, missB, badB, hk, hv, hm]
      · simp [keepB, missB, badB, hk]

/-- The kept records are exactly the records passing `keepB`. -/
theorem filter_records_fst (rs : List Record) (f : String) (m : PyFloat) :
    (filter_records rs f m).1 = rs.filter (keepB f m) := by
  simp [filter_records, filterLoop_eq]

/-- The final stats, expressed through `List.filter`. -/
theorem filter_records_stats (rs : List Record) (f : String) (m : PyFloat) :
    (filter_records rs f m).2 =
      { read := rs.length, written := (rs.filter (keepB f m)).length,
        skipped_missing_temp := (rs.filter (missB f)).length,
        skipped_bad_temp := (rs.filter (badB f)).length } := by
  simp [filter_records, filterLoop_eq]

/-- Unfolding of the per-record keep decision. -/
theorem keepB_eq_true_iff (f : String) (m : PyFloat) (r : Record) :
    keepB f m r = true ↔
      hasKey r f = true ∧
        ∃ t : PyFloat, to_float (getValue r f) = some t ∧ pyGe t m = true := by
  unfold keepB
  cases hv : to_float (getValue r f) <;> simp [hv]

/-- Every record falls in exactly one of the four buckets: kept,
missing key, uncoercible value, or coercible with a false keep
comparison. -/
theorem length_partition (f : String) (m : PyFloat) (rs : List Record) :
    rs.length = (rs.filter (keepB f m)).length + (rs.filter (missB f)).length
      + (rs.filter (badB f)).length + (rs.filter (notGeB f m)).length := by
  induction rs with
  | nil => rfl
  | cons r rs ih =>
      simp only [List.filter_cons, List.length_cons]
      by_cases hk : hasKey r f
      · cases hv : to_float (getValue r f) with
        | none => simp [keepB, missB, badB, notGeB, hk, hv]; omega
        | some t =>
            cases hm : pyGe t m with
            | false => simp [keepB, missB, badB, notGeB, hk, hv, hm]; omega
            | true => simp [keepB, missB, badB, notGeB, hk, hv, hm]; omega
      · simp [keepB, missB, badB, notGeB, hk]; omega

/-! ### Claims about `filter_records` -/

/-- C1: a record appears in the kept output of `filter_records` iff it
is an input record whose mapping contains the temperature field key,
whose value coerces via `to_float` to a number, and that number
compares at-or-above the threshold with the source's `t >= temp_min`;
on finite values `pyGe` is the exact `≤` (see `pyGe_finite_iff`), so
the boundary `t = temp_min` is kept. -/
theorem C1_keep_iff (rs : List Record) (f : String) (m : PyFloat) (r : Record) :
    r ∈ (filter_records rs f m).1 ↔
      r ∈ rs ∧ hasKey r f = true ∧
        ∃ t : PyFloat, to_float (getValue r f) = some t ∧ pyGe t m = true := by
  rw [filter_records_fst, List.mem_filter, keepB_eq_true_iff]

/-- C2 counterexample: a single record whose temperature cell holds
the text `nan`, with threshold 0.  The program reads one record; the
key is present, `float` coerces the cell to `nan`, and both
`nan >= 0` and `nan < 0` are false, so the record is neither written,
nor skipped, nor below the threshold.  The claimed equation
`read = written + skipped_missing_temp + skipped_bad_temp + (rows
below threshold)` fails: 1 ≠ 0 + 0 + 0 + 0. -/
theorem C2_counterexample :
    ¬ ((filter_records [[("temp", Value.vstr "nan")]] "temp"
          (PyFloat.finite 0)).2.read
        = (filter_records [[("temp", Value.vstr "nan")]] "temp"
            (PyFloat.finite 0)).2.written
          + (filter_records [[("temp", Value.vstr "nan")]] "temp"
              (PyFloat.finite 0)).2.skipped_missing_temp
          + (filter_records [[("temp", Value.vstr "nan")]] "temp"
              (PyFloat.finite 0)).2.skipped_bad_temp
          + ([[("temp", Value.vstr "nan")]].filter
              (belowB "temp" (PyFloat.finite 0))).length) := by
  decide

/-- C2 (amended): the stats of `filter_records` satisfy
`read = written + skipped_missing_temp + skipped_bad_temp + (rows
whose field is present and coercible but whose keep comparison
`value >= threshold` is false — below the threshold, or `nan`)`, and
`read` is the total input record count. -/
theorem C2_stats_partition (rs : List Record) (f : String) (m : PyFloat) :
    (filter_records rs f m).2.read
        = (filter_records rs f m).2.written
          + (filter_records rs f m).2.skipped_missing_temp
          + (filter_records rs f m).2.skipped_bad_temp
          + (rs.filter (notGeB f m)).length ∧
      (filter_records rs f m).2.read = rs.length := by
  rw [filter_records_stats]
  exact ⟨length_partition f m rs, rfl⟩

/-- C6: the kept records form a sublist (subsequence, in original
order) of the input, so each kept record is an input record preserved
verbatim with all its columns. -/
theorem C6_kept_sublist (rs : List Record) (f : String) (m : PyFloat) :
    List.Sublist (filter_records rs f m).1 rs := by
  rw [filter_records_fst]
  exact List.filter_sublist rs

/-- C9: `filter_records` is idempotent on its kept output: a second
pass with the same field and threshold keeps every record and reports
no skips, with `written = read`. -/
theorem C9_idempotent (rs : List Record) (f : String) (m : PyFloat) :
    filter_records ((filter_records rs f m).1) f m =
      ((filter_records rs f m).1,
        { read := (filter_records rs f m).1.length,
          written := (filter_records rs f m).1.length,
          skipped_missing_temp := 0, skipped_bad_temp := 0 }) := by
  rw [filter_records_fst]
  have hself : (rs.filter (keepB f m)).filter (keepB f m) = rs.filter (keepB f m) :=
    List.filter_eq_self.mpr fun a ha => List.of_mem_filter ha
  have hmiss : (rs.filter (keepB f m)).filter (missB f) = [] := by
    refine List.filter_eq_nil_iff.mpr fun a ha => ?_
    have hk := (keepB_eq_true_iff f m a).mp (List.of_mem_filter ha)
    simp [missB, hk.1]
  have hbad : (rs.filter (keepB f m)).filter (badB f) = [] := by
    refine List.filter_eq_nil_iff.mpr fun a ha => ?_
    obtain ⟨hk, t, ht, -⟩ := (keepB_eq_true_iff f m a).mp (List.of_mem_filter ha)
    simp [badB, hk, ht]
  unfold filter_records
  rw [filterLoop_eq]
  simp [hself, hmiss, hbad]

/-! ### Claims about `choose_temp_field` -/

/-- A hit in one record names an actual column (original case) whose
lowercase form is one of the candidates. -/
theorem detect_sound (r : Record) (f : String) (h : detectInRecord r = some f) :
    f ∈ keys r ∧ lowerString f ∈ TEMP_FIELD_CANDIDATES := by
  obtain ⟨cand, hcand, hlook⟩ := List.exists_of_findSome?_eq_some h
  have hf : f ∈ (keys r).filter fun k => lowerString k == cand :=
    List.mem_of_getLast?_eq_some hlook
  have hmem := List.mem_filter.mp hf
  refine ⟨hmem.1, ?_⟩
  have hlow : lowerString f = cand := by simpa using hmem.2
  rw [hlow]
  exact hcand

/-- Scanning a list: if every element before `c` yields no hit and `c`
yields one, `c` decides. -/
theorem findSome?_append_hit {α β : Type} (g : α → Option β) :
    ∀ (pre : List α), (∀ x ∈ pre, g x = none) →
      ∀ (c : α) (post : List α) (b : β), g c = some b →
        (pre ++ c :: post).findSome? g = some b := by
  intro pre
  induction pre with
  | nil =>
      intro _ c post b hc
      simp [hc]
  | cons x pre ih =>
      intro hnone c post b hc
      have hx : g x = none := hnone x (by simp)
      simp only [List.cons_append, List.findSome?_cons, hx]
      exact ih (fun y hy => hnone y (by simp [hy])) c post b hc

/-- Scanning a truncated list: if every element before `r` yields no
hit and `r` lies within the first `n` elements, `r` decides. -/
theorem findSome?_take_hit {α β : Type} (g : α → Option β) :
    ∀ (pre : List α) (n : ℕ), pre.length < n →
      (∀ x ∈ pre, g x = none) →
      ∀ (r : α) (post : List α) (b : β), g r = some b →
        ((pre ++ r :: post).take n).findSome? g = some b := by
  intro pre
  induction pre with
  | nil =>
      intro n hn _ r post b hr
      cases n with
      | zero => omega
      | succ k => simp [hr]
  | cons x pre ih =>
      intro n hn hnone r post b hr
      cases n with
      | zero => omega
      | succ k =>
          have hx : g x = none := hnone x (by simp)
          simp only [List.cons_append, List.take_succ_cons, List.findSome?_cons, hx]
          exact ih k (by simpa using hn) (fun y hy => hnone y (by simp [hy])) r post b hr

/-- C3: a non-empty preferred name is returned unconditionally; with no
preferred name an empty record list yields `none`; a hit names an
existing column whose lowercase form is a candidate; and when every
record before `r` (within the 25-record bound) yields no hit and `r`
yields one, that hit is the overall result — scanning never continues
past a record that produced a match; within one record the candidates
are tried in priority order: the first candidate with a
case-insensitive key match decides. -/
theorem C3_choose_behavior :
    (∀ (rs : List Record) (p : String), p ≠ "" →
        choose_temp_field rs (some p) = some p) ∧
    choose_temp_field [] none = none ∧
    (∀ (r : Record) (f : String), detectInRecord r = some f →
        f ∈ keys r ∧ lowerString f ∈ TEMP_FIELD_CANDIDATES) ∧
    (∀ (pre : List Record) (r : Record) (post : List Record) (f : String),
        pre.length < 25 → (∀ r' ∈ pre, detectInRecord r' = none) →
        detectInRecord r = some f →
        choose_temp_field (pre ++ r :: post) none = some f) ∧
    (∀ (r : Record) (cs1 : List String) (c : String) (cs2 : List String)
        (f : String),
        TEMP_FIELD_CANDIDATES = cs1 ++ c :: cs2 →
        (∀ c' ∈ cs1,
          ((keys r).filter fun k => lowerString k == c').getLast? = none) →
        ((keys r).filter fun k => lowerString k == c).getLast? = some f →
        detectInRecord r = some f) := by
  refine ⟨?_, rfl, detect_sound, ?_, ?_⟩
  · intro rs p hp
    simp [choose_temp_field, bne_iff_ne, hp]
  · intro pre r post f hlen hnone hr
    have hne : (pre ++ r :: post).isEmpty = false := by simp
    simp only [choose_temp_field, hne, Bool.false_eq_true, if_false]
    exact findSome?_take_hit detectInRecord pre 25 hlen hnone r post f hr
  · intro r cs1 c cs2 f hsplit hnone hc
    unfold detectInRecord
    rw [hsplit]
    exact findSome?_append_hit _ cs1 hnone c cs2 f hc

/-- Witness for C3 at concrete inputs. -/
theorem C3_witness :
    choose_temp_field [[("a", Value.vnum (PyFloat.finite 0))]] (some "humidity")
      = some "humidity" :=
  C3_choose_behavior.1 _ "humidity" (by decide)

/-- C5: with a uniform header, auto-detection gives the same answer on
the full record list as on its first 25 records, so the inspection
bound never changes the chosen field. -/
theorem C5_take25_stable (rs : List Record) (h : uniformHeader rs) :
    choose_temp_field rs none = choose_temp_field (rs.take 25) none := by
  cases rs with
  | nil => rfl
  | cons r rs' => simp [choose_temp_field, List.take_take]

/-- Witness for C5 at a concrete single-record list. -/
theorem C5_witness :
    choose_temp_field [[("temp", Value.vnum (PyFloat.finite 0))]] none =
      choose_temp_field ([[("temp", Value.vnum (PyFloat.finite 0))]].take 25) none :=
  C5_take25_stable _ (by
    intro r hr r' hr' k
    simp only [List.mem_singleton] at hr hr'
    subst hr; subst hr'; rfl)

/-- C10: an auto-detected field name lowercases to one of the five
candidates and is a key of one of the first 25 records; hence with a
uniform header no record lacks it, and `skipped_missing_temp` is 0 for
every threshold. -/
theorem C10_autodetect_present (rs : List Record) (f : String)
    (h : choose_temp_field rs none = some f) :
    lowerString f ∈ TEMP_FIELD_CANDIDATES ∧
      (∃ r ∈ rs.take 25, f ∈ keys r) ∧
      (uniformHeader rs →
        ∀ m : PyFloat, (filter_records rs f m).2.skipped_missing_temp = 0) := by
  cases rs with
  | nil => exact absurd h (by simp [choose_temp_field])
  | cons r0 rs' =>
      have hne : ((r0 :: rs').isEmpty) = false := by simp
      simp only [choose_temp_field, hne, Bool.false_eq_true, if_false] at h
      obtain ⟨r, hrmem, hdet⟩ := List.exists_of_findSome?_eq_some h
      obtain ⟨hkeys, hcand⟩ := detect_sound r f hdet
      refine ⟨hcand, ⟨r, hrmem, hkeys⟩, ?_⟩
      intro huni m
      have hrin : r ∈ r0 :: rs' := List.mem_of_mem_take hrmem
      have hkr : hasKey r f = true := (hasKey_iff_mem_keys r f).mpr hkeys
      have hnil : (r0 :: rs').filter (missB f) = [] := by
        refine List.filter_eq_nil_iff.mpr fun a ha => ?_
        have hak := huni a ha r hrin f
        simp [missB, hak, hkr]
      rw [filter_records_stats]
      simp [hnil]

/-- Witness for C10 at a concrete single-record list. -/
theorem C10_witness :
    lowerString "Temp" ∈ TEMP_FIELD_CANDIDATES ∧
      (∃ r ∈ ([[("Temp", Value.vnum (PyFloat.finite 1))]] : List Record).take 25,
        "Temp" ∈ keys r) ∧
      (uniformHeader [[("Temp", Value.vnum (PyFloat.finite 1))]] →
        ∀ m : PyFloat,
          (filter_records [[("Temp", Value.vnum (PyFloat.finite 1))]] "Temp"
            m).2.skipped_missing_temp = 0) :=
  C10_autodetect_present _ _ (by decide)

/-! ### Claims about `to_float` and `main` -/

/-- C7: the driver exits with status 2 exactly when the input file is
missing or the chosen temperature field is falsy (undetermined); in
those cases no output file and no log line is written; any other
completed run exits with status 0. -/
theorem C7_exit_status (a : Args) :
    ((main a).exit_code = 2 ↔ a.input_exists = false ∨ fieldFalsy a) ∧
      (a.input_exists = false ∨ fieldFalsy a →
        (main a).output_written = none ∧ (main a).log_line_written = false) ∧
      (¬(a.input_exists = false ∨ fieldFalsy a) → (main a).exit_code = 0) := by
  cases hin : a.input_exists with
  | false => simp [main, hin, abortedRun]
  | true =>
      rcases hc : choose_temp_field a.input_records a.temp_field with _ | tf
      · simp [main, hin, hc, abortedRun, fieldFalsy]
      · by_cases htf : tf = ""
        · subst htf
          simp [main, hin, hc, abortedRun, fieldFalsy]
        · simp [main, hin, hc, htf, fieldFalsy]

/-- Witness for C7: a run with a missing input file. -/
theorem C7_witness :
    (main { input_exists := false, input_records := [],
            temp_min := PyFloat.finite 0, temp_field := none,
            log_append_ok := true }).exit_code = 2 ∧
      (main { input_exists := false, input_records := [],
              temp_min := PyFloat.finite 0, temp_field := none,
              log_append_ok := true }).output_written = none :=
  ⟨(C7_exit_status _).1.mpr (Or.inl rfl),
    ((C7_exit_status _).2.1 (Or.inl rfl)).1⟩

/-- C8: when the run reaches the logging step and the log append
fails, the run still exits 0, the output rows and stats equal those of
the same run with a succeeding log append, a warning is emitted, the
summary is printed, and no log line is written. -/
theorem C8_log_failure_nonfatal (a : Args) (hin : a.input_exists = true)
    (hfield : ¬ fieldFalsy a) (hlog : a.log_append_ok = false) :
    (main a).exit_code = 0 ∧
      (main a).output_written =
        (main { a with log_append_ok := true }).output_written ∧
      (main a).run_stats = (main { a with log_append_ok := true }).run_stats ∧
      (main a).warning_emitted = true ∧
      (main a).summary_printed = true ∧
      (main a).log_line_written = false := by
  rcases hc : choose_temp_field a.input_records a.temp_field with _ | tf
  · exact absurd (Or.inl hc) hfield
  · by_cases htf : tf = ""
    · subst htf
      exact absurd (Or.inr hc) hfield
    · simp [main, hin, hc, htf, hlog]

/-- Witness for C8: a concrete run whose log append fails. -/
theorem C8_witness :
    (main { input_exists := true,
            input_records := [[("t", Value.vnum (PyFloat.finite 1))]],
            temp_min := PyFloat.finite 0, temp_field := some "t",
            log_append_ok := false }).exit_code = 0 ∧
      (main { input_exists := true,
              input_records := [[("t", Value.vnum (PyFloat.finite 1))]],
              temp_min := PyFloat.finite 0, temp_field := some "t",
              log_append_ok := false }).warning_emitted = true := by
  have h := C8_log_failure_nonfatal
    { input_exists := true,
      input_records := [[("t", Value.vnum (PyFloat.finite 1))]],
      temp_min := PyFloat.finite 0, temp_field := some "t",
      log_append_ok := false }
    rfl (by rintro (h | h) <;> exact absurd h (by decide)) rfl
  exact ⟨h.1, h.2.2.2.1⟩

end WeatherFilter
